import Mathlib

/-!
Verification of the Home Assistant deployment pipeline
(`plugins/homeassistant/skills/homeassistant/scripts/deploy-config.py`).

The Python script is shallowly embedded below: every pure computation
(command construction, result classification, report assembly) is translated
directly; external effects (subprocess runs, HTTP calls, the filesystem,
wall-clock time) are supplied as explicit oracle values recording the outcome
each call would produce, and the coordinator threads an event trace recording
which external operations were invoked.

All definitions come first, all theorems after them.
-/

namespace DeployConfig

/-! ## String primitives

Kernel-evaluable models of the Python string library calls the script makes.
-/

/-- Characters Python's `shlex.quote` considers safe: ASCII word characters
plus at-sign, percent, plus, equals, colon, comma, dot, slash and hyphen. -/
def shlexSafeChar (c : Char) : Bool :=
  c.isAlphanum || c == '_' || c == '@' || c == '%' || c == '+' || c == '=' ||
  c == ':' || c == ',' || c == '.' || c == '/' || c == '-'

/-- Python `shlex.quote`: empty strings become a pair of single quotes; strings
of safe characters are returned unchanged; anything else is wrapped in single
quotes with each embedded single quote replaced by quote, double-quoted quote,
quote. (The replacement is written out character-by-character so that it
evaluates in the kernel; it is Python's `s.replace` with a one-character
needle.) -/
def shlexQuote (s : String) : String :=
  if s.data.isEmpty then "\x27\x27"
  else if s.data.all shlexSafeChar then s
  else "\x27" ++
    String.mk (s.data.flatMap
      (fun c => if c == '\x27' then ("\x27\"\x27\"\x27").data else [c])) ++
    "\x27"

/-- Codepoint-lexicographic order on character lists: the comparison Python
uses when `sorted` ranks the file paths of one directory. -/
def charsLt : List Char → List Char → Bool
  | [], [] => false
  | [], _ :: _ => true
  | _ :: _, [] => false
  | a :: as, b :: bs =>
    decide (a.toNat < b.toNat) || (a == b && charsLt as bs)

/-- String order used by `sorted(yaml_files)`. -/
def nameLt (a b : String) : Bool := charsLt a.data b.data

/-- Suffix test on strings (the semantics of `Path.glob` with a leading-star
pattern such as `*.yaml`), via character lists so it evaluates in the kernel. -/
def nameEndsWith (s suffix : String) : Bool := suffix.data.isSuffixOf s.data

/-- Case-insensitive-free substring test (used for the `"unauthorized" in
output.lower()` checks): does `pat` occur contiguously inside `s`? -/
def charsContain (pat : List Char) : List Char → Bool
  | [] => pat.isEmpty
  | c :: t => pat.isPrefixOf (c :: t) || charsContain pat t

/-- `pat in s` on Python strings. -/
def strContains (s pat : String) : Bool := charsContain pat.data s.data

/-- Lower-casing for the `unauthorized` heuristic, character by character. -/
def strLower (s : String) : String := String.mk (s.data.map Char.toLower)

/-! ## Promotion command construction (`deploy_staging_to_production`) -/

/-- `RSYNC_EXCLUDES` from deploy-config.py: the hard-coded protected-path
patterns that every promotion to production excludes. -/
def RSYNC_EXCLUDES : List String :=
  [".storage/",
   "backups/",
   "secrets.yaml",
   "*.db",
   "*.db-shm",
   "*.db-wal",
   "home-assistant.log*",
   "*.log",
   "tts/",
   "deps/",
   "__pycache__/",
   ".cloud/",
   ".ha_run.lock",
   ".HA_VERSION"]

/-- The `exclude_parts` list built by `deploy_staging_to_production`:
one `--exclude=<shlex.quote(pattern)>` argument per protected pattern. -/
def exclude_parts : List String :=
  RSYNC_EXCLUDES.map (fun e => "--exclude=" ++ shlexQuote e)

/-- `excludes_str = " ".join(exclude_parts)` from `deploy_staging_to_production`. -/
def excludes_str : String := String.intercalate " " exclude_parts

/-- The remote rsync command string assembled by `deploy_staging_to_production`
(the f-string on line 274 of deploy-config.py). `stg`/`cfg` are the values of
`HA_STAGING_PATH`/`HA_CONFIG_PATH` (environment-configurable). -/
def deploy_rsync_cmd (stg cfg : String) (dry_run : Bool) : String :=
  "rsync -av --delete " ++ (if dry_run then "--dry-run " else "") ++
    excludes_str ++ " " ++ shlexQuote (stg ++ "/") ++ " " ++
    shlexQuote (cfg ++ "/")

/-- The full argv passed to `subprocess.run` by `deploy_staging_to_production`. -/
def deploy_ssh_command (ssh_host stg cfg : String) (dry_run : Bool) : List String :=
  ["ssh", ssh_host, deploy_rsync_cmd stg cfg dry_run]

/-- A token occurs verbatim inside a command string. -/
def ContainsToken (cmd tok : String) : Prop := ∃ p q, cmd = p ++ tok ++ q

/-! ## Local tree, validation (`validate_local_config`), staging transfer -/

/-- A file in the local configuration tree: the directory components of its
path relative to the tree root (`[]` = directly in the root) plus its base
name. -/
structure FileEntry where
  dirs : List String
  name : String
deriving DecidableEq

/-- The per-file dict produced by `validate_yaml_file`. -/
structure FileResult where
  file : String
  valid : Bool
  error : Option String
deriving DecidableEq

/-- `validate_yaml_file`: the outcome of `yaml.load` with the HA loader is
supplied by the oracle `parse` (`none` = the document parses, `some msg` = the
parser raises with message `msg`). -/
def validate_yaml_file (parse : FileEntry → Option String) (f : FileEntry) :
    FileResult :=
  match parse f with
  | none => { file := f.name, valid := true, error := none }
  | some e => { file := f.name, valid := false, error := some e }

/-- Stable insertion of a file into a name-sorted list. -/
def insertByName (x : FileEntry) : List FileEntry → List FileEntry
  | [] => [x]
  | y :: ys => if nameLt y.name x.name then y :: insertByName x ys else x :: y :: ys

/-- `sorted(...)` over files of a single directory: stable sort by name. -/
def sortByName (l : List FileEntry) : List FileEntry := l.foldr insertByName []

/-- `validate_local_config`: globs `*.yaml` then `*.yml` directly in the root
(`Path.glob` is non-recursive), sorts, skips `secrets.yaml` by name, validates
each remaining file, and succeeds iff no validated file has an error. -/
def validate_local_config (parse : FileEntry → Option String)
    (tree : List FileEntry) : Bool × List FileResult :=
  let yaml_files :=
    tree.filter (fun f => f.dirs.isEmpty && nameEndsWith f.name ".yaml") ++
    tree.filter (fun f => f.dirs.isEmpty && nameEndsWith f.name ".yml")
  let results :=
    ((sortByName yaml_files).filter (fun f => f.name != "secrets.yaml")).map
      (validate_yaml_file parse)
  let errors := results.filter (fun r => !r.valid)
  (errors.length == 0, results)

/-- The exclude patterns hard-coded in `rsync_to_staging`'s argv. -/
def STAGING_EXCLUDES : List String :=
  [".git/",
   ".gitignore",
   "secrets.yaml",
   ".storage/",
   "backups/",
   "*.db",
   "*.log*",
   "tts/",
   "deps/",
   "__pycache__/"]

/-- The argv built by `rsync_to_staging` (local tree to the controller's
staging path, mirror semantics). -/
def staging_rsync_command (local_path ssh_host stg : String) : List String :=
  ["rsync", "-av", "--delete"] ++
    STAGING_EXCLUDES.map (fun e => "--exclude=" ++ e) ++
    [local_path ++ "/", ssh_host ++ ":" ++ stg ++ "/"]

/-- The argv built by `copy_secrets_to_staging`: a remote `cp` of the
production secrets file into the staging tree, with errors discarded
(`2>/dev/null || true`). -/
def copy_secrets_command (ssh_host cfg stg : String) : List String :=
  ["ssh", ssh_host,
   "cp " ++ shlexQuote (cfg ++ "/secrets.yaml") ++ " " ++
     shlexQuote (stg ++ "/secrets.yaml") ++ " 2>/dev/null || true"]

/-! ## rsync transfer semantics

Model of which files an rsync run with the exclude patterns above actually
copies, for the pattern shapes the script uses (`*` globs, plain names, and
directory patterns ending in `/`).
-/

/-- Shell-glob matching with `*` wildcards (the only metacharacter appearing
in the exclude patterns above) against a single path component. Defined with
explicit fuel so that it evaluates in the kernel; the fuel in `globMatch`
always suffices because every step consumes a pattern or subject character. -/
def globMatchAux : Nat → List Char → List Char → Bool
  | 0, _, _ => false
  | _ + 1, [], [] => true
  | _ + 1, [], _ :: _ => false
  | n + 1, '*' :: ps, [] => globMatchAux n ps []
  | n + 1, '*' :: ps, c :: cs =>
    globMatchAux n ps (c :: cs) || globMatchAux n ('*' :: ps) cs
  | _ + 1, _ :: _, [] => false
  | n + 1, p :: ps, c :: cs => (p == c) && globMatchAux n ps cs

/-- Glob match of a pattern against one path component. -/
def globMatch (ps cs : List Char) : Bool :=
  globMatchAux (ps.length + cs.length + 1) ps cs

/-- Does an rsync pattern name a directory (trailing slash)? -/
def patIsDir (p : String) : Bool := p.data.getLast? == some '/'

/-- rsync exclude-filter semantics: a pattern ending in `/` excludes a file
when some ancestor directory component matches its base (the directory is
pruned); a slash-free pattern excludes a file when it matches the base name or
any ancestor directory component. -/
def excludedBy (pats : List String) (f : FileEntry) : Bool :=
  pats.any (fun p =>
    if patIsDir p then
      f.dirs.any (fun d => globMatch p.data.dropLast d.data)
    else
      globMatch p.data f.name.data || f.dirs.any (fun d => globMatch p.data d.data))

/-- The files `rsync_to_staging` transfers: the whole tree, subdirectories
included, minus the staging exclude patterns. -/
def staged_files (tree : List FileEntry) : List FileEntry :=
  tree.filter (fun f => !excludedBy STAGING_EXCLUDES f)

/-- The files the promotion sync transfers from staging into production: the
staged tree minus the protected-path patterns. -/
def promoted_files (staged : List FileEntry) : List FileEntry :=
  staged.filter (fun f => !excludedBy RSYNC_EXCLUDES f)

/-- Concrete tree for the subdirectory-validation scenario: a valid root
document plus a structurally broken document inside `packages/`. -/
def subdirBadFile : FileEntry := { dirs := ["packages"], name := "broken.yaml" }

/-- The scenario tree containing `subdirBadFile`. -/
def subdirTree : List FileEntry :=
  [{ dirs := [], name := "configuration.yaml" }, subdirBadFile]

/-- Parse oracle for the scenario: only the subdirectory file is invalid. -/
def subdirParse : FileEntry → Option String :=
  fun f => if f = subdirBadFile then some "mapping values are not allowed here" else none

/-! ## Controller API client and backup orchestrator (`wait_for_backup`) -/

/-- One backup listed by `GET /backup/info`. The fields are those
`wait_for_backup` reads, each optional because `dict.get` tolerates absence. -/
structure Backup where
  slug : Option String
  name : Option String
  size : Option Nat
deriving DecidableEq

/-- Outcome of one `subprocess.run` call: either the completed process
(return code, stdout, stderr) or the exception the call raised. -/
inductive ProcOutcome where
  | ran (returncode : Int) (stdout stderr : String)
  | exn (msg : String)
deriving DecidableEq

/-- External operations the pipeline can invoke; `main` records them in order
in an event trace. -/
inductive Event where
  | stagingPush
  | secretsCopy
  | listBackups
  | createBackupPrimary
  | createBackupLegacy
  | promoteSync (dry_run : Bool)
  | remoteCheck
  | reloadCall (domain service : String)
deriving DecidableEq

/-- The dict returned by `wait_for_backup`. -/
structure BackupOutcome where
  success : Bool
  backup_id : Option String := none
  name : Option String := none
  size : Option Nat := none
  error : Option String := none
deriving DecidableEq

/-- httpx `Response.is_success`: a status in the 2xx range.
`Response.raise_for_status` raises `HTTPStatusError` for every other status —
1xx and 3xx included, not only 4xx/5xx. -/
def httpSuccess (st : Nat) : Bool := decide (200 ≤ st) && decide (st < 300)

/-- `HomeAssistantClient.create_backup`, given the outcomes of the primary and
legacy POST endpoints (`.error` = transport exception, `.ok st` = HTTP
status). `raise_for_status` raises on any non-2xx status; only the 404 it
raises for the primary endpoint is caught and retried against the legacy
endpoint, whose own `raise_for_status` propagates; every other exception
propagates. Also returns the POST events issued. -/
def create_backup (primary legacy : Except String Nat) :
    Except String Unit × List Event :=
  match primary with
  | .error e => (.error e, [.createBackupPrimary])
  | .ok st =>
    if st == 404 then
      match legacy with
      | .error e => (.error e, [.createBackupPrimary, .createBackupLegacy])
      | .ok st2 =>
        if httpSuccess st2 then
          (.ok (), [.createBackupPrimary, .createBackupLegacy])
        else
          (.error ("HTTP status error " ++ toString st2),
           [.createBackupPrimary, .createBackupLegacy])
    else if httpSuccess st then (.ok (), [.createBackupPrimary])
    else (.error ("HTTP status error " ++ toString st), [.createBackupPrimary])

/-- Poll cadence of `wait_for_backup`: the `while` loop re-checks elapsed time
before each `sleep(5)`; with the polls themselves instantaneous the k-th poll
(1-based) happens at elapsed time `5 * (k - 1)`, so exactly `⌈timeout / 5⌉`
polls fit inside the budget. -/
def numPolls (timeout : Nat) : Nat := (timeout + 4) / 5

/-- Is a listed backup's slug previously unseen (slug set recorded before the
create request)? -/
def newSlugP (before : List (Option String)) (b : Backup) : Bool :=
  !(before.contains b.slug)

/-- The polling loop of `wait_for_backup`. `lb i` is the result of the i-th
`list_backups` call (call 0 was the pre-create listing); `fuel` is the number
of polls still inside the timeout budget. Python's `set.pop` on the set of new
slugs is modeled as taking the first backup of the listing whose slug is
unseen; the entry the subsequent `next(...)` lookup finds is that same
backup. -/
def wait_loop (lb : Nat → Except String (List Backup))
    (before : List (Option String)) (timeout : Nat) :
    Nat → Nat → Except String BackupOutcome × List Event
  | _, 0 =>
    (.ok { success := false,
           error := some ("Backup did not complete within " ++ toString timeout ++ "s") },
     [])
  | i, fuel + 1 =>
    match lb i with
    | .error e => (.error e, [.listBackups])
    | .ok after =>
      match after.find? (newSlugP before) with
      | some nb =>
        (.ok { success := true, backup_id := nb.slug, name := nb.name, size := nb.size },
         [.listBackups])
      | none =>
        let r := wait_loop lb before timeout (i + 1) fuel
        (r.1, .listBackups :: r.2)

/-- `wait_for_backup`: record the existing slugs, trigger the backup (with
legacy fallback), then poll every 5 seconds until a new slug appears or the
timeout elapses. Exceptions from `list_backups` or `create_backup` escape as
`.error` — the function has no handler for them. -/
def wait_for_backup (lb : Nat → Except String (List Backup))
    (primary legacy : Except String Nat) (timeout : Nat) :
    Except String BackupOutcome × List Event :=
  match lb 0 with
  | .error e => (.error e, [.listBackups])
  | .ok bs =>
    let before := bs.map (fun b => b.slug)
    let c := create_backup primary legacy
    match c.1 with
    | .error e => (.error e, .listBackups :: c.2)
    | .ok _ =>
      let r := wait_loop lb before timeout 1 (numPolls timeout)
      (r.1, .listBackups :: (c.2 ++ r.2))

/-! ## Remote validator (`run_ha_core_check`) -/

/-- Outcome of `json.loads(stdout)` followed by the `.get` accesses: a JSON
object (restricted to the string fields the script reads), a successfully
decoded non-object (whose `.get` raises an `AttributeError` with message
`excMsg`), or a `JSONDecodeError`. -/
inductive JsonParse where
  | obj (fields : List (String × String))
  | nonObj (excMsg : String)
  | fail
deriving DecidableEq

/-- The `output` key of `run_ha_core_check`'s result: the parsed JSON object
or the raw stdout. -/
inductive CheckOutput where
  | json (fields : List (String × String))
  | raw (s : String)
deriving DecidableEq

/-- The dict returned by `run_ha_core_check` (keys absent in a branch are
defaulted). -/
structure CheckStep where
  success : Bool
  skipped : Bool := false
  note : Option String := none
  output : Option CheckOutput := none
  error : Option String := none
deriving DecidableEq

/-- `run_ha_core_check`: run `ha core check --raw-json` over SSH and classify
the outcome. -/
def run_ha_core_check (jsonLoads : String → JsonParse) (proc : ProcOutcome) :
    CheckStep :=
  match proc with
  | .exn m =>
    { success := true, skipped := true,
      note := some ("ha core check unavailable: " ++ m) }
  | .ran rc out err =>
    if strContains (strLower err) "unauthorized" ||
       strContains (strLower out) "unauthorized" then
      { success := true, skipped := true,
        note := some "ha core check not available via SSH (auth required)" }
    else
      match jsonLoads out with
      | .obj fields =>
        let valid := fields.lookup "result" == some "ok"
        { success := valid, output := some (.json fields),
          error := if valid then none else fields.lookup "message" }
      | .nonObj m =>
        { success := true, skipped := true,
          note := some ("ha core check unavailable: " ++ m) }
      | .fail =>
        if rc == 0 then
          { success := true, output := some (.raw out) }
        else
          { success := true, skipped := true,
            note := some "Could not parse ha core check output" }

/-- A check result reporting an invalid configuration (as opposed to `valid`,
which has `success` set, or `unsupported`, which has `skipped` set). -/
def checkInvalid (c : CheckStep) : Bool := !c.skipped && !c.success

/-! ## Reload orchestrator (`reload_home_assistant`) -/

/-- The fixed, ordered reload service list. -/
def reload_services : List (String × String) :=
  [("homeassistant", "reload_core_config"),
   ("automation", "reload"),
   ("script", "reload"),
   ("scene", "reload"),
   ("input_boolean", "reload"),
   ("input_number", "reload"),
   ("input_select", "reload"),
   ("input_text", "reload")]

/-- The dict returned by `reload_home_assistant`. -/
structure ReloadStep where
  success : Bool
  reloaded : List String
  errors : List String
deriving DecidableEq

/-- The loop of `reload_home_assistant`: every service is called regardless of
earlier outcomes; a success appends to `reloaded`, an exception to `errors`;
the call itself is recorded in the event trace either way. -/
def reload_go (call : String → String → Except String Unit) :
    List (String × String) → List String × List String × List Event →
    List String × List String × List Event
  | [], acc => acc
  | (d, s) :: rest, (reloaded, errors, evs) =>
    match call d s with
    | .ok _ =>
      reload_go call rest
        (reloaded ++ [d ++ "." ++ s], errors, evs ++ [.reloadCall d s])
    | .error e =>
      reload_go call rest
        (reloaded, errors ++ [d ++ "." ++ s ++ ": " ++ e], evs ++ [.reloadCall d s])

/-- `reload_home_assistant`: run all reload services, succeed iff no errors. -/
def reload_home_assistant (call : String → String → Except String Unit) :
    ReloadStep × List Event :=
  let acc := reload_go call reload_services ([], [], [])
  ({ success := acc.2.1.length == 0, reloaded := acc.1, errors := acc.2.1 }, acc.2.2)

/-! ## Pipeline coordinator (`main`) -/

/-- The `yaml_validation` step dict. -/
structure ValidationStep where
  success : Bool
  results : List FileResult
  error : Option String
deriving DecidableEq

/-- The `staging_push` step dict produced by `rsync_to_staging`. -/
structure SyncStep where
  success : Bool
  error : Option String
deriving DecidableEq

/-- `rsync_to_staging`: success iff the rsync process exited 0; stderr (or the
exception text) is the failure detail. -/
def rsync_to_staging (proc : ProcOutcome) : SyncStep :=
  match proc with
  | .ran rc _ err =>
    { success := rc == 0, error := if rc == 0 then none else some err }
  | .exn m => { success := false, error := some m }

/-- The `deploy` step dict. The `dry_run` and `output` keys exist only on the
non-exception path, hence the options. -/
structure DeployStep where
  success : Bool
  dry_run : Option Bool
  output : Option String
  error : Option String
deriving DecidableEq

/-- `deploy_staging_to_production`'s result for a given subprocess outcome. -/
def deploy_staging_to_production (proc : ProcOutcome) (dry : Bool) : DeployStep :=
  match proc with
  | .ran rc out err =>
    { success := rc == 0, dry_run := some dry, output := some out,
      error := if rc == 0 then none else some err }
  | .exn m => { success := false, dry_run := none, output := none, error := some m }

/-- The `backup` entry of the report: `{"skipped": True}` on caller opt-out,
otherwise the dict `wait_for_backup` returned. -/
inductive BackupRecord where
  | skipped
  | ran (r : BackupOutcome)
deriving DecidableEq

/-- The `steps` dict `main` accumulates (keys absent until assigned), plus the
`error` key the top-level exception handler writes. -/
structure RunReport where
  yaml_validation : Option ValidationStep := none
  staging_push : Option SyncStep := none
  backup : Option BackupRecord := none
  deploy : Option DeployStep := none
  ha_check : Option CheckStep := none
  reload : Option ReloadStep := none
  overall_success : Option Bool := none
  abort_reason : Option String := none
  dry_run_mode : Bool := false
  errMsg : Option String := none
deriving DecidableEq

/-- The observable outcome of one `main` invocation: the emitted report, the
process exit code, and the trace of external operations invoked. -/
structure RunResult where
  report : RunReport
  exitCode : Nat
  events : List Event
deriving DecidableEq

/-- All external-world outcomes one run can observe, plus the CLI flags. -/
structure Env where
  pathExists : Bool
  parse : FileEntry → Option String
  tree : List FileEntry
  stagingProc : ProcOutcome
  deployProc : Bool → ProcOutcome
  listBackups : Nat → Except String (List Backup)
  createPrimary : Except String Nat
  createLegacy : Except String Nat
  checkProc : ProcOutcome
  jsonLoads : String → JsonParse
  reloadCall : String → String → Except String Unit
  no_backup : Bool
  dry_run : Bool

/-- Steps 4-6 of `main` (promotion, remote check, reload) and the final
aggregation, entered once validation, staging and the backup decision allowed
the run to continue. `report`/`evs` carry what was recorded so far. -/
def pipeline_tail (env : Env) (report : RunReport) (evs : List Event) : RunResult :=
  let d := deploy_staging_to_production (env.deployProc false) false
  let r4 : RunReport := { report with deploy := some d }
  let evs1 := evs ++ [Event.promoteSync false]
  if !d.success then
    { report := { r4 with
        overall_success := some false,
        abort_reason := some "Deploy failed" },
      exitCode := 1, events := evs1 }
  else
    let c := run_ha_core_check env.jsonLoads env.checkProc
    let rl := reload_home_assistant env.reloadCall
    let r5 : RunReport := { r4 with ha_check := some c, reload := some rl.1 }
    let overall := d.success && c.success && rl.1.success
    { report := { r5 with overall_success := some overall },
      exitCode := if overall then 0 else 1,
      events := evs1 ++ [Event.remoteCheck] ++ rl.2 }

/-- The `main` command of deploy-config.py. A missing config path raises
`click.UsageError`, which click turns into exit code 2; otherwise the pipeline
runs: validate, stage, secrets copy, then either the dry-run preview or
backup/promote/check/reload. A `.error` escaping `wait_for_backup` is caught
by the top-level handler, which records it in the `error` key. -/
def main (env : Env) : RunResult :=
  if !env.pathExists then
    { report := {}, exitCode := 2, events := [] }
  else
    let v := validate_local_config env.parse env.tree
    let vstep : ValidationStep :=
      { success := v.1, results := v.2,
        error := if v.1 then none else some "YAML syntax errors found" }
    let r1 : RunReport := { yaml_validation := some vstep }
    if !v.1 then
      { report := { r1 with
          overall_success := some false,
          abort_reason := some "YAML validation failed" },
        exitCode := 1, events := [] }
    else
      let s := rsync_to_staging env.stagingProc
      let r2 : RunReport := { r1 with staging_push := some s }
      if !s.success then
        { report := { r2 with
            overall_success := some false,
            abort_reason := some "Failed to push to staging" },
          exitCode := 1, events := [Event.stagingPush] }
      else
        let evs0 := [Event.stagingPush, Event.secretsCopy]
        if env.dry_run then
          let d0 := deploy_staging_to_production (env.deployProc true) true
          let d : DeployStep := { d0 with dry_run := some true }
          { report := { r2 with
              deploy := some d,
              overall_success := some true,
              dry_run_mode := true },
            exitCode := 0, events := evs0 ++ [Event.promoteSync true] }
        else
          if env.no_backup then
            pipeline_tail env { r2 with backup := some .skipped } evs0
          else
            let w := wait_for_backup env.listBackups env.createPrimary
              env.createLegacy 300
            match w.1 with
            | .error e =>
              { report := { r2 with errMsg := some e, overall_success := some false },
                exitCode := 1, events := evs0 ++ w.2 }
            | .ok bres =>
              let r3 : RunReport := { r2 with backup := some (.ran bres) }
              if !bres.success then
                { report := { r3 with
                    overall_success := some false,
                    abort_reason := some "Backup failed" },
                  exitCode := 1, events := evs0 ++ w.2 }
              else
                pipeline_tail env r3 (evs0 ++ w.2)

/-! ## Concrete environments for counterexamples and witnesses -/

/-- A fully healthy environment except that the backup listing never shows a
new slug (so an attempted backup times out). -/
def baseEnv : Env :=
  { pathExists := true,
    parse := fun _ => none,
    tree := [{ dirs := [], name := "configuration.yaml" }],
    stagingProc := .ran 0 "sent" "",
    deployProc := fun _ => .ran 0 "sent 4096 bytes" "",
    listBackups := fun _ => .ok [],
    createPrimary := .ok 200,
    createLegacy := .ok 200,
    checkProc := .ran 0 "" "",
    jsonLoads := fun _ => .obj [("result", "ok")],
    reloadCall := fun _ _ => .ok (),
    no_backup := false,
    dry_run := false }

/-- Environment whose local tree has an invalid root document. -/
def envInvalidYaml : Env :=
  { baseEnv with parse := fun _ => some "mapping values are not allowed here" }

/-- Environment whose backup listing request raises. -/
def envListError : Env :=
  { baseEnv with listBackups := fun _ => .error "Connection refused" }

/-- Backup listing that reveals the new slug `abc123` on the second poll. -/
def pollTwiceLb : Nat → Except String (List Backup) :=
  fun i => if i ≤ 1 then .ok []
    else .ok [{ slug := some "abc123", name := some "Automatic backup", size := some 1024 }]

/-- Healthy environment with the caller's explicit backup opt-out. -/
def envOptOut : Env := { baseEnv with no_backup := true }

/-- Dry-run environment whose preview sync reports failure. -/
def envDryPreviewFail : Env :=
  { baseEnv with
    dry_run := true,
    deployProc := fun _ => .ran 23 "" "rsync: connection unexpectedly closed" }

/-- Environment reaching the tail (backup opted out) where the remote check
reports an invalid configuration and one reload call fails. -/
def envInvalidCheck : Env :=
  { baseEnv with
    no_backup := true,
    jsonLoads := fun _ => .obj [("result", "invalid"), ("message", "Integration error: sensor")],
    reloadCall := fun d _ => if d == "automation" then .error "500 Internal Server Error" else .ok () }

/-! # Theorems -/

theorem containsToken_of_middle (pre mid post tok p q : String)
    (h : mid = p ++ tok ++ q) : ContainsToken (pre ++ mid ++ post) tok := by
  refine ⟨pre ++ p, q ++ post, ?_⟩
  subst h
  simp only [String.append_assoc]

theorem intercalate_go_decomp_acc (s tok : String) :
    ∀ (as : List String) (acc p q : String), acc = p ++ tok ++ q →
      ∃ u v, String.intercalate.go acc s as = u ++ tok ++ v := by
  intro as
  induction as with
  | nil => intro acc p q h; exact ⟨p, q, h⟩
  | cons a as ih =>
    intro acc p q h
    refine ih (acc ++ s ++ a) p (q ++ s ++ a) ?_
    rw [h]; simp only [String.append_assoc]

theorem intercalate_go_decomp_mem (s tok : String) :
    ∀ (as : List String) (acc : String), tok ∈ as →
      ∃ u v, String.intercalate.go acc s as = u ++ tok ++ v := by
  intro as
  induction as with
  | nil => intro acc h; cases h
  | cons a as ih =>
    intro acc h
    rcases List.mem_cons.mp h with rfl | h
    · refine intercalate_go_decomp_acc s tok as (acc ++ s ++ tok) (acc ++ s) "" ?_
      rw [String.append_empty]
    · exact ih (acc ++ s ++ a) h

/-- Any member of a list occurs verbatim inside the list's intercalation. -/
theorem mem_intercalate_decomp (s tok : String) (parts : List String)
    (h : tok ∈ parts) : ∃ u v, String.intercalate s parts = u ++ tok ++ v := by
  cases parts with
  | nil => cases h
  | cons a as =>
    rcases List.mem_cons.mp h with rfl | h
    · exact intercalate_go_decomp_acc s tok as tok "" "" (by
        rw [String.append_empty, String.empty_append])
    · exact intercalate_go_decomp_mem s tok as a h

theorem deploy_cmd_contains (stg cfg : String) (dry_run : Bool) (tok p q : String)
    (h : excludes_str = p ++ tok ++ q) :
    ContainsToken (deploy_rsync_cmd stg cfg dry_run) tok := by
  refine ⟨"rsync -av --delete " ++ (if dry_run then "--dry-run " else "") ++ p,
          q ++ " " ++ shlexQuote (stg ++ "/") ++ " " ++ shlexQuote (cfg ++ "/"), ?_⟩
  rw [deploy_rsync_cmd, h]
  simp only [String.append_assoc]

/-- **C1.** For every invocation of `deploy_staging_to_production` — any SSH
host, any staging/production paths, dry-run or not — the remote rsync command
carries an `--exclude=` entry for every pattern of the hard-coded
`RSYNC_EXCLUDES` list: the entry is a member of the `exclude_parts` argument
list, it occurs verbatim in the assembled command string, and the argv run is
exactly `ssh <host> <command>`. No parameter of the call can remove or replace
any of these entries, so the effective exclude set is always a superset of the
protected-path set. -/
theorem c1_promotion_protected_excludes (ssh_host stg cfg : String)
    (dry_run : Bool) (e : String) (he : e ∈ RSYNC_EXCLUDES) :
    ("--exclude=" ++ shlexQuote e) ∈ exclude_parts ∧
    ContainsToken (deploy_rsync_cmd stg cfg dry_run) ("--exclude=" ++ shlexQuote e) ∧
    deploy_ssh_command ssh_host stg cfg dry_run =
      ["ssh", ssh_host, deploy_rsync_cmd stg cfg dry_run] := by
  have hmem : ("--exclude=" ++ shlexQuote e) ∈ exclude_parts :=
    List.mem_map_of_mem (fun x => "--exclude=" ++ shlexQuote x) he
  obtain ⟨u, v, huv⟩ :=
    mem_intercalate_decomp " " ("--exclude=" ++ shlexQuote e) exclude_parts hmem
  exact ⟨hmem, deploy_cmd_contains stg cfg dry_run _ u v huv, rfl⟩

/-- Witness for C1 at a concrete input: the `.storage/` protected pattern and
the default staging/production paths. -/
theorem mem_insertByName : ∀ {l : List FileEntry} {x y : FileEntry},
    x ∈ insertByName y l → x = y ∨ x ∈ l := by
  intro l
  induction l with
  | nil => intro x y h; simpa [insertByName] using h
  | cons z zs ih =>
    intro x y h
    simp only [insertByName] at h
    split at h
    · rcases List.mem_cons.mp h with rfl | h
      · exact Or.inr (List.mem_cons_self _ _)
      · rcases ih h with rfl | h
        · exact Or.inl rfl
        · exact Or.inr (List.mem_cons_of_mem _ h)
    · rcases List.mem_cons.mp h with rfl | h
      · exact Or.inl rfl
      · exact Or.inr h

theorem mem_sortByName : ∀ {l : List FileEntry} {x : FileEntry},
    x ∈ sortByName l → x ∈ l := by
  intro l
  induction l with
  | nil => intro x h; cases h
  | cons a as ih =>
    intro x h
    rcases mem_insertByName h with rfl | h
    · exact List.mem_cons_self _ _
    · exact List.mem_cons_of_mem _ (ih h)

/-- Every per-file result produced by `validate_local_config` comes from a file
of the tree that sits directly in the root, has a YAML extension, and is not
named `secrets.yaml`. -/
theorem validate_mem_spec (parse : FileEntry → Option String)
    (tree : List FileEntry) (r : FileResult)
    (hr : r ∈ (validate_local_config parse tree).2) :
    ∃ f, f ∈ tree ∧ f.dirs = [] ∧ f.name ≠ "secrets.yaml" ∧
      r = validate_yaml_file parse f := by
  simp only [validate_local_config] at hr
  obtain ⟨f, hf, rfl⟩ := List.mem_map.mp hr
  obtain ⟨hf1, hf2⟩ := List.mem_filter.mp hf
  have hfs := mem_sortByName hf1
  have hname : f.name ≠ "secrets.yaml" := by
    intro hn
    rw [hn] at hf2
    simp at hf2
  rcases List.mem_append.mp hfs with hmem | hmem <;>
    obtain ⟨ht, hcond⟩ := List.mem_filter.mp hmem <;>
    exact ⟨f, ht, List.isEmpty_iff.mp (Bool.and_elim_left hcond), hname, rfl⟩

/-- The file name recorded in a `validate_yaml_file` result. -/
theorem validate_yaml_file_name (parse : FileEntry → Option String)
    (f : FileEntry) : (validate_yaml_file parse f).file = f.name := by
  cases hp : parse f <;> simp [validate_yaml_file, hp]

/-- A pattern with no trailing slash that matches a file's base name excludes
the file. -/
theorem excludedBy_of_name (pats : List String) (f : FileEntry) (p : String)
    (hp : p ∈ pats) (hdir : patIsDir p = false)
    (hm : globMatch p.data f.name.data = true) :
    excludedBy pats f = true := by
  unfold excludedBy
  refine List.any_eq_true.mpr ⟨p, hp, ?_⟩
  simp [hdir, hm]

theorem c1_promotion_protected_excludes_witness :
    ("--exclude=" ++ shlexQuote ".storage/") ∈ exclude_parts ∧
    ContainsToken (deploy_rsync_cmd "/homeassistant/config_staging" "/homeassistant" false)
      ("--exclude=" ++ shlexQuote ".storage/") ∧
    deploy_ssh_command "root@homeassistant.local" "/homeassistant/config_staging"
        "/homeassistant" false =
      ["ssh", "root@homeassistant.local",
       deploy_rsync_cmd "/homeassistant/config_staging" "/homeassistant" false] :=
  c1_promotion_protected_excludes "root@homeassistant.local"
    "/homeassistant/config_staging" "/homeassistant" false ".storage/" (by decide)

/-- If the first `j` polls show no unseen slug and poll `j + 1` (still inside
the fuel budget) does, the loop succeeds with that backup's handle after
exactly `j + 1` listing calls. -/
theorem wait_loop_success (lb : Nat → Except String (List Backup))
    (before : List (Option String)) (timeout : Nat) (nb : Backup) :
    ∀ (j i fuel : Nat), j < fuel →
      (∀ m, m < j → ∃ bs, lb (i + m) = .ok bs ∧ bs.find? (newSlugP before) = none) →
      (∃ bs, lb (i + j) = .ok bs ∧ bs.find? (newSlugP before) = some nb) →
      wait_loop lb before timeout i fuel =
        (.ok { success := true, backup_id := nb.slug, name := nb.name, size := nb.size },
         List.replicate (j + 1) .listBackups) := by
  intro j
  induction j with
  | zero =>
    intro i fuel hj hnone hfound
    obtain ⟨bs, hlb, hfind⟩ := hfound
    rw [Nat.add_zero] at hlb
    cases fuel with
    | zero => omega
    | succ f => simp [wait_loop, hlb, hfind]
  | succ j ih =>
    intro i fuel hj hnone hfound
    cases fuel with
    | zero => omega
    | succ f =>
      obtain ⟨bs0, hlb0, hfind0⟩ := hnone 0 (Nat.succ_pos j)
      rw [Nat.add_zero] at hlb0
      have hrec := ih (i + 1) f (by omega)
        (fun m hm => by
          have h := hnone (m + 1) (by omega)
          rwa [show i + (m + 1) = i + 1 + m by omega] at h)
        (by
          have h := hfound
          rwa [show i + (j + 1) = i + 1 + j by omega] at h)
      simp [wait_loop, hlb0, hfind0, hrec, List.replicate_succ]

/-- If every poll inside the fuel budget shows no unseen slug, the loop
reports the timeout failure after exactly `fuel` listing calls. -/
theorem wait_loop_timeout (lb : Nat → Except String (List Backup))
    (before : List (Option String)) (timeout : Nat) :
    ∀ (fuel i : Nat),
      (∀ m, m < fuel → ∃ bs, lb (i + m) = .ok bs ∧ bs.find? (newSlugP before) = none) →
      wait_loop lb before timeout i fuel =
        (.ok { success := false,
               error := some ("Backup did not complete within " ++ toString timeout ++ "s") },
         List.replicate fuel .listBackups) := by
  intro fuel
  induction fuel with
  | zero => intro i _; simp [wait_loop]
  | succ f ih =>
    intro i h
    obtain ⟨bs0, hlb0, hfind0⟩ := h 0 (by omega)
    rw [Nat.add_zero] at hlb0
    have hrec := ih (i + 1) (fun m hm => by
      have hx := h (m + 1) (by omega)
      rwa [show i + (m + 1) = i + 1 + m by omega] at hx)
    simp [wait_loop, hlb0, hfind0, hrec, List.replicate_succ]

/-- `create_backup` issues either the primary POST alone or the primary POST
followed by the legacy fallback. -/
theorem create_backup_events_shape (primary legacy : Except String Nat) :
    (create_backup primary legacy).2 = [Event.createBackupPrimary] ∨
    (create_backup primary legacy).2 =
      [Event.createBackupPrimary, Event.createBackupLegacy] := by
  rcases primary with e | st
  · left; rfl
  · by_cases h404 : st = 404
    · subst h404
      rcases legacy with e2 | st2
      · right; simp [create_backup]
      · rcases hs : httpSuccess st2
        · right; simp [create_backup, hs]
        · right; simp [create_backup, hs]
    · rcases hs : httpSuccess st
      · left; simp [create_backup, beq_iff_eq, h404, hs]
      · left; simp [create_backup, beq_iff_eq, h404, hs]

/-- Every event `create_backup` emits is one of the two create POSTs. -/
theorem create_backup_events (primary legacy : Except String Nat) :
    ∀ x ∈ (create_backup primary legacy).2,
      x = Event.createBackupPrimary ∨ x = Event.createBackupLegacy := by
  intro x hx
  rcases create_backup_events_shape primary legacy with h | h <;> rw [h] at hx
  · simp at hx; simp [hx]
  · simp at hx; exact hx

/-- Every event the polling loop emits is a listing call. -/
theorem wait_loop_events (lb : Nat → Except String (List Backup))
    (before : List (Option String)) (timeout : Nat) :
    ∀ (fuel i : Nat), ∀ x ∈ (wait_loop lb before timeout i fuel).2,
      x = Event.listBackups := by
  intro fuel
  induction fuel with
  | zero => intro i x hx; simp [wait_loop] at hx
  | succ f ih =>
    intro i x hx
    rcases hlb : lb i with e | after
    · simp [wait_loop, hlb] at hx
      exact hx
    · rcases hfind : after.find? (newSlugP before) with _ | nb
      · simp [wait_loop, hlb, hfind] at hx
        rcases hx with h | h
        · exact h
        · exact ih (i + 1) x h
      · simp [wait_loop, hlb, hfind] at hx
        exact hx

/-- Every event `wait_for_backup` emits is a listing call or a create POST. -/
theorem wait_for_backup_events (lb : Nat → Except String (List Backup))
    (primary legacy : Except String Nat) (timeout : Nat) :
    ∀ x ∈ (wait_for_backup lb primary legacy timeout).2,
      x = Event.listBackups ∨ x = Event.createBackupPrimary ∨
        x = Event.createBackupLegacy := by
  intro x hx
  simp only [wait_for_backup] at hx
  rcases hlb : lb 0 with e | bs
  · rw [hlb] at hx; simp at hx; simp [hx]
  · rw [hlb] at hx
    rcases hc : (create_backup primary legacy).1 with e | u
    · rw [hc] at hx
      simp at hx
      rcases hx with h | h
      · simp [h]
      · exact Or.inr (create_backup_events primary legacy x h)
    · rw [hc] at hx
      simp at hx
      rcases hx with h | h | h
      · simp [h]
      · exact Or.inr (create_backup_events primary legacy x h)
      · exact Or.inl (wait_loop_events lb _ timeout _ 1 x h)

/-- `wait_for_backup` under the success scenario: initial listing, successful
create, `j` empty polls, then an unseen slug on poll `j + 1` within budget. -/
theorem wait_for_backup_success (lb : Nat → Except String (List Backup))
    (primary legacy : Except String Nat) (timeout j : Nat) (bs0 : List Backup)
    (nb : Backup) (cevs : List Event)
    (h0 : lb 0 = .ok bs0)
    (hc : create_backup primary legacy = (.ok (), cevs))
    (hnone : ∀ m, m < j → ∃ bs, lb (1 + m) = .ok bs ∧
      bs.find? (newSlugP (bs0.map (fun b => b.slug))) = none)
    (hfound : ∃ bs, lb (1 + j) = .ok bs ∧
      bs.find? (newSlugP (bs0.map (fun b => b.slug))) = some nb)
    (hj : j + 1 ≤ numPolls timeout) :
    wait_for_backup lb primary legacy timeout =
      (.ok { success := true, backup_id := nb.slug, name := nb.name, size := nb.size },
       Event.listBackups :: (cevs ++ List.replicate (j + 1) Event.listBackups)) := by
  have hloop := wait_loop_success lb (bs0.map (fun b => b.slug)) timeout nb j 1
    (numPolls timeout) (by omega) hnone hfound
  simp [wait_for_backup, h0, hc, hloop]

/-- `wait_for_backup` under the timeout scenario: every poll inside the budget
shows no unseen slug. -/
theorem wait_for_backup_timeout (lb : Nat → Except String (List Backup))
    (primary legacy : Except String Nat) (timeout : Nat) (bs0 : List Backup)
    (cevs : List Event)
    (h0 : lb 0 = .ok bs0)
    (hc : create_backup primary legacy = (.ok (), cevs))
    (hnone : ∀ m, m < numPolls timeout → ∃ bs, lb (1 + m) = .ok bs ∧
      bs.find? (newSlugP (bs0.map (fun b => b.slug))) = none) :
    wait_for_backup lb primary legacy timeout =
      (.ok { success := false,
             error := some ("Backup did not complete within " ++ toString timeout ++ "s") },
       Event.listBackups :: (cevs ++ List.replicate (numPolls timeout) Event.listBackups)) := by
  have hloop := wait_loop_timeout lb (bs0.map (fun b => b.slug)) timeout
    (numPolls timeout) 1 hnone
  simp [wait_for_backup, h0, hc, hloop]

/-- A check result is never both skipped and failed: `skipped` implies
`success`, so `success` is exactly "outcome is not invalid". -/
theorem check_success_eq_not_invalid (jsonLoads : String → JsonParse)
    (proc : ProcOutcome) :
    (run_ha_core_check jsonLoads proc).success =
      !checkInvalid (run_ha_core_check jsonLoads proc) := by
  unfold checkInvalid
  rcases proc with ⟨rc, out, err⟩ | m
  · simp only [run_ha_core_check]
    by_cases hauth : (strContains (strLower err) "unauthorized" ||
        strContains (strLower out) "unauthorized") = true
    · rw [if_pos hauth]; rfl
    · rw [if_neg hauth]
      rcases hj : jsonLoads out with fields | m2 | _
      · simp only [hj]
        simp
      · simp only [hj]
        rfl
      · simp only [hj]
        by_cases hrc : (rc == 0) = true
        · rw [if_pos hrc]; rfl
        · rw [if_neg hrc]; rfl
  · rfl

/-- The reload loop records one call event per service, in order, whatever the
call outcomes are. -/
theorem reload_go_events (call : String → String → Except String Unit) :
    ∀ (l : List (String × String)) (rl er : List String) (evs : List Event),
      (reload_go call l (rl, er, evs)).2.2 =
        evs ++ l.map (fun p => Event.reloadCall p.1 p.2) := by
  intro l
  induction l with
  | nil => intro rl er evs; simp [reload_go]
  | cons p rest ih =>
    intro rl er evs
    obtain ⟨d, s⟩ := p
    rcases hc : call d s with e | u <;>
      simp [reload_go, hc, ih, List.append_assoc]

/-- Every service contributes exactly one entry, to `reloaded` or `errors`. -/
theorem reload_go_count (call : String → String → Except String Unit) :
    ∀ (l : List (String × String)) (rl er : List String) (evs : List Event),
      (reload_go call l (rl, er, evs)).1.length +
        (reload_go call l (rl, er, evs)).2.1.length =
      rl.length + er.length + l.length := by
  intro l
  induction l with
  | nil => intro rl er evs; simp [reload_go]
  | cons p rest ih =>
    intro rl er evs
    obtain ⟨d, s⟩ := p
    rcases hc : call d s with e | u <;>
      (simp [reload_go, hc, ih]; omega)

/-- `reload_home_assistant` succeeds exactly when its error list is empty. -/
theorem reload_success_iff (call : String → String → Except String Unit) :
    (reload_home_assistant call).1.success = true ↔
      (reload_home_assistant call).1.errors = [] := by
  unfold reload_home_assistant
  simp [List.length_eq_zero]

/-- The promotion/check/reload tail: the aggregated outcome equals the
promote-and-check-and-reload conjunction, the exit code mirrors it, and the
promotion sync is always attempted. -/
theorem pipeline_tail_overall (env : Env) (r : RunReport) (evs : List Event) :
    (pipeline_tail env r evs).report.overall_success =
      some ((deploy_staging_to_production (env.deployProc false) false).success &&
        (run_ha_core_check env.jsonLoads env.checkProc).success &&
        (reload_home_assistant env.reloadCall).1.success) ∧
    (pipeline_tail env r evs).exitCode =
      (if ((deploy_staging_to_production (env.deployProc false) false).success &&
        (run_ha_core_check env.jsonLoads env.checkProc).success &&
        (reload_home_assistant env.reloadCall).1.success) then 0 else 1) ∧
    Event.promoteSync false ∈ (pipeline_tail env r evs).events := by
  unfold pipeline_tail
  rcases hd : (deploy_staging_to_production (env.deployProc false) false).success
  · simp [hd]
  · simp [hd]

/-- The tail leaves the backup record untouched. -/
theorem pipeline_tail_backup (env : Env) (r : RunReport) (evs : List Event) :
    (pipeline_tail env r evs).report.backup = r.backup := by
  unfold pipeline_tail
  rcases hd : (deploy_staging_to_production (env.deployProc false) false).success
  · simp [hd]
  · simp [hd]

/-- When the promotion succeeds, the tail records the check and reload steps
and appends the reload call events. -/
theorem pipeline_tail_after_deploy (env : Env) (r : RunReport) (evs : List Event)
    (hd : (deploy_staging_to_production (env.deployProc false) false).success = true) :
    (pipeline_tail env r evs).report.ha_check =
      some (run_ha_core_check env.jsonLoads env.checkProc) ∧
    (pipeline_tail env r evs).report.reload =
      some (reload_home_assistant env.reloadCall).1 ∧
    (pipeline_tail env r evs).events =
      evs ++ [Event.promoteSync false] ++ [Event.remoteCheck] ++
        (reload_home_assistant env.reloadCall).2 := by
  unfold pipeline_tail
  simp [hd]

/-- A run with at least one invalid examined document fails validation. -/
theorem validate_fst_false (parse : FileEntry → Option String)
    (tree : List FileEntry)
    (h : ∃ r ∈ (validate_local_config parse tree).2, r.valid = false) :
    (validate_local_config parse tree).1 = false := by
  obtain ⟨r, hr, hv⟩ := h
  simp only [validate_local_config] at hr ⊢
  have hmem : r ∈ (((sortByName
      (tree.filter (fun f => f.dirs.isEmpty && nameEndsWith f.name ".yaml") ++
       tree.filter (fun f => f.dirs.isEmpty && nameEndsWith f.name ".yml"))).filter
        (fun f => f.name != "secrets.yaml")).map (validate_yaml_file parse)).filter
        (fun r => !r.valid) :=
    List.mem_filter.mpr ⟨hr, by simp [hv]⟩
  have hne := List.ne_nil_of_mem hmem
  simp only [beq_eq_false_iff_ne, ne_eq, List.length_eq_zero]
  exact hne

/-- Once validation, staging and the backup decision let the run continue, the
coordinator enters the tail with the accumulated report and events. -/
theorem main_reaches_tail (env : Env)
    (hpath : env.pathExists = true)
    (hval : (validate_local_config env.parse env.tree).1 = true)
    (hstg : (rsync_to_staging env.stagingProc).success = true)
    (hdry : env.dry_run = false)
    (hbk : env.no_backup = true ∨
      ∃ b, (wait_for_backup env.listBackups env.createPrimary env.createLegacy
        300).1 = .ok b ∧ b.success = true) :
    ∃ r evs, main env = pipeline_tail env r evs ∧
      ((env.no_backup = true ∧ r.backup = some BackupRecord.skipped ∧
        evs = [Event.stagingPush, Event.secretsCopy]) ∨
       (env.no_backup = false ∧ ∃ b, r.backup = some (BackupRecord.ran b) ∧
        b.success = true ∧
        evs = [Event.stagingPush, Event.secretsCopy] ++
          (wait_for_backup env.listBackups env.createPrimary env.createLegacy 300).2)) := by
  cases hn : env.no_backup with
  | true =>
    refine ⟨{ yaml_validation :=
                some { success := true,
                       results := (validate_local_config env.parse env.tree).2,
                       error := none },
              staging_push := some (rsync_to_staging env.stagingProc),
              backup := some BackupRecord.skipped },
      [Event.stagingPush, Event.secretsCopy], ?_, ?_⟩
    · unfold main
      simp [hpath, hval, hstg, hdry, hn]
    · exact Or.inl ⟨rfl, rfl, rfl⟩
  | false =>
    rcases hbk with hnb | ⟨b, hw, hbs⟩
    · rw [hn] at hnb; cases hnb
    · refine ⟨{ yaml_validation :=
                  some { success := true,
                         results := (validate_local_config env.parse env.tree).2,
                         error := none },
                staging_push := some (rsync_to_staging env.stagingProc),
                backup := some (BackupRecord.ran b) },
        [Event.stagingPush, Event.secretsCopy] ++
          (wait_for_backup env.listBackups env.createPrimary env.createLegacy 300).2,
        ?_, ?_⟩
      · unfold main
        simp [hpath, hval, hstg, hdry, hn, hw, hbs]
      · exact Or.inr ⟨rfl, b, rfl, hbs, rfl⟩

/-- **C6.** The secrets document is isolated from every push toward the
controller: (1) `validate_local_config` never examines a file named
`secrets.yaml`; (2) the staging push argv carries `--exclude=secrets.yaml` and
no staged file is named `secrets.yaml`; (3) the promotion exclude list carries
the secrets entry and no promoted file is named `secrets.yaml`; (4) the only
secrets write, `copy_secrets_to_staging`, copies from the production path into
the staging path (shown at the default paths), never the local file. -/
theorem c6_secrets_isolation :
    (∀ parse tree r, r ∈ (validate_local_config parse tree).2 →
      r.file ≠ "secrets.yaml") ∧
    (∀ local_path ssh_host stg,
      "--exclude=secrets.yaml" ∈ staging_rsync_command local_path ssh_host stg) ∧
    (∀ tree f, f ∈ staged_files tree → f.name ≠ "secrets.yaml") ∧
    ("--exclude=" ++ shlexQuote "secrets.yaml") ∈ exclude_parts ∧
    (∀ staged f, f ∈ promoted_files staged → f.name ≠ "secrets.yaml") ∧
    (∀ ssh_host,
      copy_secrets_command ssh_host "/homeassistant" "/homeassistant/config_staging" =
        ["ssh", ssh_host,
         "cp /homeassistant/secrets.yaml /homeassistant/config_staging/secrets.yaml 2>/dev/null || true"]) := by
  refine ⟨?_, ?_, ?_, ?_, ?_, ?_⟩
  · intro parse tree r hr
    obtain ⟨f, -, -, hname, rfl⟩ := validate_mem_spec parse tree r hr
    rw [validate_yaml_file_name]
    exact hname
  · intro local_path ssh_host stg
    simp [staging_rsync_command, STAGING_EXCLUDES]
  · intro tree f hf hname
    obtain ⟨-, hcond⟩ := List.mem_filter.mp hf
    have hex : excludedBy STAGING_EXCLUDES f = true :=
      excludedBy_of_name STAGING_EXCLUDES f "secrets.yaml" (by decide) (by decide)
        (by rw [hname]; decide)
    rw [hex] at hcond
    simp at hcond
  · decide
  · intro staged f hf hname
    obtain ⟨-, hcond⟩ := List.mem_filter.mp hf
    have hex : excludedBy RSYNC_EXCLUDES f = true :=
      excludedBy_of_name RSYNC_EXCLUDES f "secrets.yaml" (by decide) (by decide)
        (by rw [hname]; decide)
    rw [hex] at hcond
    simp at hcond
  · intro ssh_host
    have h3 : "cp " ++ shlexQuote ("/homeassistant" ++ "/secrets.yaml") ++ " " ++
        shlexQuote ("/homeassistant/config_staging" ++ "/secrets.yaml") ++
        " 2>/dev/null || true" =
        "cp /homeassistant/secrets.yaml /homeassistant/config_staging/secrets.yaml 2>/dev/null || true" := by
      decide
    simp only [copy_secrets_command, h3]

/-- Witness for C6 at concrete inputs: a tree holding a root `secrets.yaml`
next to a normal document. The validator result examined is the one the
concrete run produces, and the staged-tree conjunct is applied to the concrete
secrets file. -/
theorem c6_secrets_isolation_witness :
    (({ file := "configuration.yaml", valid := true, error := none } : FileResult).file ≠
      "secrets.yaml") ∧
    ("--exclude=secrets.yaml" ∈
      staging_rsync_command "/home/user/ha-config" "root@homeassistant.local"
        "/homeassistant/config_staging") ∧
    (({ dirs := [], name := "secrets.yaml" } : FileEntry) ∉
      staged_files [{ dirs := [], name := "secrets.yaml" },
                    { dirs := [], name := "configuration.yaml" }]) :=
  ⟨c6_secrets_isolation.1 (fun _ => none)
      [{ dirs := [], name := "secrets.yaml" }, { dirs := [], name := "configuration.yaml" }]
      _ (by decide),
   c6_secrets_isolation.2.1 "/home/user/ha-config" "root@homeassistant.local"
     "/homeassistant/config_staging",
   fun h => c6_secrets_isolation.2.2.1 _ _ h rfl⟩

/-- **C10.** Local validation is non-recursive while deployment is recursive:
every file the validator examines sits directly in the tree root, yet the
staging and promotion syncs copy subdirectories too. Concretely, for the tree
`subdirTree` whose only invalid document `subdirBadFile` lies inside
`packages/`, validation reports success while the invalid document is staged
and then promoted to production. -/
theorem c10_shallow_validation_deep_deploy :
    (∀ parse tree r, r ∈ (validate_local_config parse tree).2 →
      ∃ f, f ∈ tree ∧ f.dirs = [] ∧ r = validate_yaml_file parse f) ∧
    ((validate_local_config subdirParse subdirTree).1 = true ∧
      subdirParse subdirBadFile = some "mapping values are not allowed here" ∧
      subdirBadFile.dirs ≠ [] ∧
      subdirBadFile ∈ subdirTree ∧
      subdirBadFile ∈ staged_files subdirTree ∧
      subdirBadFile ∈ promoted_files (staged_files subdirTree)) := by
  constructor
  · intro parse tree r hr
    obtain ⟨f, h1, h2, -, h4⟩ := validate_mem_spec parse tree r hr
    exact ⟨f, h1, h2, h4⟩
  · exact ⟨by decide, by decide, by decide, by decide, by decide, by decide⟩

/-- Witness for C10: the universally quantified conjunct applied to the
concrete scenario run, whose only examined file is the root document. -/
theorem c10_shallow_validation_deep_deploy_witness :
    ∃ f, f ∈ subdirTree ∧ f.dirs = [] ∧
      ({ file := "configuration.yaml", valid := true, error := none } : FileResult) =
        validate_yaml_file subdirParse f :=
  c10_shallow_validation_deep_deploy.1 subdirParse subdirTree _ (by decide)

/-- **C2 (amended).** For every local tree containing at least one invalid
document among the files the validator examines, the pipeline aborts before
any remote call: the validation step is recorded as failed, the abort reason
is the code's literal string `"YAML validation failed"` (the spec's §4.9 calls
this state "local validation failed"), overall success is false, the process
exits 1, and the event trace is empty — no staging push, secrets copy, backup,
promotion, remote check, or reload is invoked. -/
theorem c2_local_validation_aborts (env : Env)
    (hpath : env.pathExists = true)
    (hinv : ∃ r ∈ (validate_local_config env.parse env.tree).2, r.valid = false) :
    (main env).report.yaml_validation =
      some { success := false,
             results := (validate_local_config env.parse env.tree).2,
             error := some "YAML syntax errors found" } ∧
    (main env).report.abort_reason = some "YAML validation failed" ∧
    (main env).report.overall_success = some false ∧
    (main env).exitCode = 1 ∧
    (main env).events = [] := by
  have hval := validate_fst_false env.parse env.tree hinv
  refine ⟨?_, ?_, ?_, ?_, ?_⟩ <;>
    · unfold main
      simp [hpath, hval]

/-- Counterexample to C2 as stated: at a concrete tree with one invalid root
document, the recorded abort reason is `"YAML validation failed"`, not the
`"local validation failed"` the claim asserts. -/
theorem c2_abort_reason_counterexample :
    (main envInvalidYaml).report.abort_reason = some "YAML validation failed" ∧
    (main envInvalidYaml).report.abort_reason ≠ some "local validation failed" := by
  constructor
  · decide
  · decide

/-- Witness for the amended C2 at the concrete invalid tree. -/
theorem c2_local_validation_aborts_witness :
    (main envInvalidYaml).report.abort_reason = some "YAML validation failed" ∧
    (main envInvalidYaml).report.overall_success = some false ∧
    (main envInvalidYaml).exitCode = 1 ∧
    (main envInvalidYaml).events = [] := by
  have h := c2_local_validation_aborts envInvalidYaml rfl (by decide)
  exact ⟨h.2.1, h.2.2.1, h.2.2.2.1, h.2.2.2.2⟩

/-- **C5.** In dry-run mode, whenever validation and the staging push succeed,
the run previews the promotion (`promoteSync true` is the only remote-mutation
event), records overall success and exits 0 — whatever the preview sync's own
outcome — and never invokes the backup, remote-check or reload operations. -/
theorem c5_dry_run_short_circuit (env : Env)
    (hpath : env.pathExists = true)
    (hval : (validate_local_config env.parse env.tree).1 = true)
    (hstg : (rsync_to_staging env.stagingProc).success = true)
    (hdry : env.dry_run = true) :
    (main env).report.overall_success = some true ∧
    (main env).exitCode = 0 ∧
    (main env).report.dry_run_mode = true ∧
    (main env).report.deploy =
      some { deploy_staging_to_production (env.deployProc true) true with
             dry_run := some true } ∧
    (main env).events =
      [Event.stagingPush, Event.secretsCopy, Event.promoteSync true] ∧
    Event.remoteCheck ∉ (main env).events ∧
    Event.listBackups ∉ (main env).events ∧
    Event.createBackupPrimary ∉ (main env).events ∧
    Event.createBackupLegacy ∉ (main env).events ∧
    (∀ d s, Event.reloadCall d s ∉ (main env).events) := by
  have hev : (main env).events =
      [Event.stagingPush, Event.secretsCopy, Event.promoteSync true] := by
    unfold main
    simp [hpath, hval, hstg, hdry]
  refine ⟨?_, ?_, ?_, ?_, hev, ?_, ?_, ?_, ?_, ?_⟩
  · unfold main
    simp [hpath, hval, hstg, hdry]
  · unfold main
    simp [hpath, hval, hstg, hdry]
  · unfold main
    simp [hpath, hval, hstg, hdry]
  · unfold main
    simp [hpath, hval, hstg, hdry]
  · rw [hev]; simp
  · rw [hev]; simp
  · rw [hev]; simp
  · rw [hev]; simp
  · intro d s; rw [hev]; simp

/-- Witness for C5 at a concrete dry run whose preview sync fails: the run is
still reported successful with exit 0 and no backup/check/reload calls. -/
theorem c5_dry_run_short_circuit_witness :
    (main envDryPreviewFail).report.overall_success = some true ∧
    (main envDryPreviewFail).exitCode = 0 ∧
    (deploy_staging_to_production (envDryPreviewFail.deployProc true) true).success
      = false ∧
    Event.remoteCheck ∉ (main envDryPreviewFail).events := by
  have h := c5_dry_run_short_circuit envDryPreviewFail rfl (by decide) (by decide) rfl
  exact ⟨h.1, h.2.1, by decide, h.2.2.2.2.2.1⟩

/-- **C4.** For every non-dry-run invocation that reaches the promotion step
(validation and staging succeeded, backup skipped or confirmed), the reported
overall success equals promotion success AND the remote verify outcome not
being invalid (unsupported/skipped counts toward success) AND the reload step
reporting no errors; the exit code is 0 when that conjunction holds and 1
otherwise. -/
theorem c4_overall_success_formula (env : Env)
    (hpath : env.pathExists = true)
    (hval : (validate_local_config env.parse env.tree).1 = true)
    (hstg : (rsync_to_staging env.stagingProc).success = true)
    (hdry : env.dry_run = false)
    (hbk : env.no_backup = true ∨
      ∃ b, (wait_for_backup env.listBackups env.createPrimary env.createLegacy
        300).1 = .ok b ∧ b.success = true) :
    (main env).report.overall_success =
      some ((deploy_staging_to_production (env.deployProc false) false).success &&
        !checkInvalid (run_ha_core_check env.jsonLoads env.checkProc) &&
        (reload_home_assistant env.reloadCall).1.success) ∧
    (main env).exitCode =
      (if ((deploy_staging_to_production (env.deployProc false) false).success &&
        !checkInvalid (run_ha_core_check env.jsonLoads env.checkProc) &&
        (reload_home_assistant env.reloadCall).1.success) then 0 else 1) ∧
    ((main env).exitCode = 0 ↔ (main env).report.overall_success = some true) := by
  obtain ⟨r, evs, hm, -⟩ := main_reaches_tail env hpath hval hstg hdry hbk
  obtain ⟨h1, h2, -⟩ := pipeline_tail_overall env r evs
  rw [check_success_eq_not_invalid] at h1 h2
  rw [hm]
  refine ⟨h1, h2, ?_⟩
  rw [h1, h2]
  rcases hb : ((deploy_staging_to_production (env.deployProc false) false).success &&
      !checkInvalid (run_ha_core_check env.jsonLoads env.checkProc) &&
      (reload_home_assistant env.reloadCall).1.success)
  · simp
  · simp

/-- Witness for C4 at a concrete healthy run with backup opted out. -/
theorem c4_overall_success_formula_witness :
    (main envOptOut).report.overall_success = some true ∧
    (main envOptOut).exitCode = 0 := by
  have h := c4_overall_success_formula envOptOut rfl (by decide) (by decide) rfl
    (Or.inl rfl)
  constructor
  · rw [h.1]; decide
  · rw [h.2.1]; decide

/-- **C7 (amended).** If the backup-listing request errors, the exception
escapes `wait_for_backup` (the step does not return a result dict) and is
caught only by the coordinator's top-level handler: the run records the error
text, no backup step (in particular no skipped one) appears in the report,
overall success is false, the process exits 1, and neither the promotion sync
nor the remote check is ever invoked. (It is `run_ha_core_check`, not the
backup step, that downgrades unavailability to a skipped outcome.) -/
theorem c7_listing_error_propagates (env : Env) (e : String)
    (hpath : env.pathExists = true)
    (hval : (validate_local_config env.parse env.tree).1 = true)
    (hstg : (rsync_to_staging env.stagingProc).success = true)
    (hdry : env.dry_run = false)
    (hnb : env.no_backup = false)
    (hlb : env.listBackups 0 = .error e) :
    (main env).report.errMsg = some e ∧
    (main env).report.backup = none ∧
    (main env).report.overall_success = some false ∧
    (main env).exitCode = 1 ∧
    (main env).events = [Event.stagingPush, Event.secretsCopy, Event.listBackups] := by
  have hw : wait_for_backup env.listBackups env.createPrimary env.createLegacy 300 =
      (.error e, [Event.listBackups]) := by
    unfold wait_for_backup
    rw [hlb]
  refine ⟨?_, ?_, ?_, ?_, ?_⟩ <;>
    · unfold main
      simp [hpath, hval, hstg, hdry, hnb, hw]

/-- Counterexample to C7 as stated: at a concrete run whose listing request
raises, the backup step yields no result dict at all — in particular not a
skipped one — and the run fails with the raw exception recorded. -/
theorem c7_listing_error_counterexample :
    (main envListError).report.backup = none ∧
    (main envListError).report.backup ≠ some BackupRecord.skipped ∧
    (main envListError).report.errMsg = some "Connection refused" ∧
    (main envListError).report.overall_success = some false ∧
    (main envListError).exitCode = 1 := by
  refine ⟨?_, ?_, ?_, ?_, ?_⟩ <;> decide

/-- Witness for the amended C7 at the concrete erroring environment. -/
theorem c7_listing_error_propagates_witness :
    (main envListError).report.errMsg = some "Connection refused" ∧
    (main envListError).report.backup = none ∧
    (main envListError).events =
      [Event.stagingPush, Event.secretsCopy, Event.listBackups] := by
  have h := c7_listing_error_propagates envListError "Connection refused" rfl
    (by decide) (by decide) rfl rfl rfl
  exact ⟨h.1, h.2.1, h.2.2.2.2⟩

/-- **C3 (amended).** The backup step: `create_backup` falls back to the
legacy endpoint exactly on a 404 from the primary — a 2xx succeeds with the
primary alone, while any other non-2xx status (1xx and 3xx included, httpx
`raise_for_status` semantics) propagates as an exception; `wait_for_backup`
records the pre-existing slugs with an initial listing, issues the create
request, then polls (one listing per 5-second interval, `⌈timeout/5⌉` polls in
the budget): an unseen slug appearing on poll `j + 1` within the budget yields
success with that backup's handle, and a budget exhausted with no unseen slug
yields failure. In the coordinator, an attempted backup that fails aborts the
run with the code's literal abort reason `"Backup failed"` (the spec's §4.9
writes "backup failed") and exit 1 before the promotion sync; with the
explicit opt-out the step is recorded skipped and promotion proceeds. -/
theorem c3_backup_orchestration :
    (∀ legacy : Except String Nat,
      (create_backup (.ok 404) legacy).2 =
        [Event.createBackupPrimary, Event.createBackupLegacy]) ∧
    (∀ (st : Nat) (legacy : Except String Nat), 200 ≤ st → st < 300 →
      create_backup (.ok st) legacy = (.ok (), [Event.createBackupPrimary])) ∧
    (∀ (st : Nat) (legacy : Except String Nat), ¬(200 ≤ st ∧ st < 300) →
      st ≠ 404 →
      create_backup (.ok st) legacy =
        (.error ("HTTP status error " ++ toString st), [Event.createBackupPrimary])) ∧
    (∀ (lb : Nat → Except String (List Backup)) (primary legacy : Except String Nat)
      (timeout j : Nat) (bs0 : List Backup) (nb : Backup) (cevs : List Event),
      lb 0 = .ok bs0 →
      create_backup primary legacy = (.ok (), cevs) →
      (∀ m, m < j → ∃ bs, lb (1 + m) = .ok bs ∧
        bs.find? (newSlugP (bs0.map (fun b => b.slug))) = none) →
      (∃ bs, lb (1 + j) = .ok bs ∧
        bs.find? (newSlugP (bs0.map (fun b => b.slug))) = some nb) →
      j + 1 ≤ numPolls timeout →
      wait_for_backup lb primary legacy timeout =
        (.ok { success := true, backup_id := nb.slug, name := nb.name, size := nb.size },
         Event.listBackups :: (cevs ++ List.replicate (j + 1) Event.listBackups))) ∧
    (∀ (lb : Nat → Except String (List Backup)) (primary legacy : Except String Nat)
      (timeout : Nat) (bs0 : List Backup) (cevs : List Event),
      lb 0 = .ok bs0 →
      create_backup primary legacy = (.ok (), cevs) →
      (∀ m, m < numPolls timeout → ∃ bs, lb (1 + m) = .ok bs ∧
        bs.find? (newSlugP (bs0.map (fun b => b.slug))) = none) →
      wait_for_backup lb primary legacy timeout =
        (.ok { success := false,
               error := some ("Backup did not complete within " ++ toString timeout ++ "s") },
         Event.listBackups :: (cevs ++ List.replicate (numPolls timeout) Event.listBackups))) ∧
    (∀ (env : Env) (b : BackupOutcome),
      env.pathExists = true →
      (validate_local_config env.parse env.tree).1 = true →
      (rsync_to_staging env.stagingProc).success = true →
      env.dry_run = false → env.no_backup = false →
      (wait_for_backup env.listBackups env.createPrimary env.createLegacy 300).1 =
        .ok b →
      b.success = false →
      (main env).report.abort_reason = some "Backup failed" ∧
      (main env).report.backup = some (BackupRecord.ran b) ∧
      (main env).report.overall_success = some false ∧
      (main env).exitCode = 1 ∧
      (∀ dr, Event.promoteSync dr ∉ (main env).events) ∧
      Event.remoteCheck ∉ (main env).events) ∧
    (∀ env : Env,
      env.pathExists = true →
      (validate_local_config env.parse env.tree).1 = true →
      (rsync_to_staging env.stagingProc).success = true →
      env.dry_run = false → env.no_backup = true →
      (main env).report.backup = some BackupRecord.skipped ∧
      Event.promoteSync false ∈ (main env).events) := by
  refine ⟨?_, ?_, ?_, ?_, ?_, ?_, ?_⟩
  · intro legacy
    rcases legacy with e | st2
    · simp [create_backup]
    · rcases hs : httpSuccess st2 <;> simp [create_backup, hs]
  · intro st legacy h200 h300
    have h404 : ¬st = 404 := by omega
    have hs : httpSuccess st = true := by
      simp only [httpSuccess, Bool.and_eq_true, decide_eq_true_eq]
      omega
    simp [create_backup, beq_iff_eq, h404, hs]
  · intro st legacy hnot h404
    have hs : httpSuccess st = false := by
      rcases hb : httpSuccess st
      · rfl
      · simp only [httpSuccess, Bool.and_eq_true, decide_eq_true_eq] at hb
        exact absurd hb hnot
    simp [create_backup, beq_iff_eq, h404, hs]
  · intro lb primary legacy timeout j bs0 nb cevs h0 hc hnone hfound hj
    exact wait_for_backup_success lb primary legacy timeout j bs0 nb cevs h0 hc
      hnone hfound hj
  · intro lb primary legacy timeout bs0 cevs h0 hc hnone
    exact wait_for_backup_timeout lb primary legacy timeout bs0 cevs h0 hc hnone
  · intro env b hpath hval hstg hdry hnb hw hbs
    have hev : (main env).events = [Event.stagingPush, Event.secretsCopy] ++
        (wait_for_backup env.listBackups env.createPrimary env.createLegacy 300).2 := by
      unfold main
      simp [hpath, hval, hstg, hdry, hnb, hw, hbs]
    refine ⟨?_, ?_, ?_, ?_, ?_, ?_⟩
    · unfold main; simp [hpath, hval, hstg, hdry, hnb, hw, hbs]
    · unfold main; simp [hpath, hval, hstg, hdry, hnb, hw, hbs]
    · unfold main; simp [hpath, hval, hstg, hdry, hnb, hw, hbs]
    · unfold main; simp [hpath, hval, hstg, hdry, hnb, hw, hbs]
    · intro dr hmem
      rw [hev] at hmem
      rcases List.mem_append.mp hmem with h | h
      · simp at h
      · have h2 := wait_for_backup_events env.listBackups env.createPrimary
          env.createLegacy 300 _ h
        simp at h2
    · intro hmem
      rw [hev] at hmem
      rcases List.mem_append.mp hmem with h | h
      · simp at h
      · have h2 := wait_for_backup_events env.listBackups env.createPrimary
          env.createLegacy 300 _ h
        simp at h2
  · intro env hpath hval hstg hdry hn
    obtain ⟨r, evs, hm, hside⟩ := main_reaches_tail env hpath hval hstg hdry (Or.inl hn)
    rcases hside with ⟨-, hb, -⟩ | ⟨hfalse, -⟩
    · rw [hm]
      constructor
      · rw [pipeline_tail_backup, hb]
      · exact (pipeline_tail_overall env r evs).2.2
    · rw [hn] at hfalse
      cases hfalse

/-- Counterexample to C3 as stated: at a concrete run whose backup polls never
show a new slug, the recorded abort reason is `"Backup failed"`, not the
`"backup failed"` the claim asserts. -/
theorem c3_abort_reason_counterexample :
    (main baseEnv).report.abort_reason = some "Backup failed" ∧
    (main baseEnv).report.abort_reason ≠ some "backup failed" ∧
    (main baseEnv).exitCode = 1 := by
  refine ⟨?_, ?_, ?_⟩ <;> decide

/-- Witness for the amended C3: a listing oracle revealing slug `abc123` on
the second poll yields success with that handle after the pre-listing, one
create POST and two polls. -/
theorem c3_backup_orchestration_witness :
    wait_for_backup pollTwiceLb (.ok 200) (.ok 200) 300 =
      (.ok { success := true, backup_id := some "abc123",
             name := some "Automatic backup", size := some 1024 },
       Event.listBackups ::
         ([Event.createBackupPrimary] ++ List.replicate 2 Event.listBackups)) := by
  refine c3_backup_orchestration.2.2.2.1 pollTwiceLb (.ok 200) (.ok 200) 300 1 []
    { slug := some "abc123", name := some "Automatic backup", size := some 1024 }
    [Event.createBackupPrimary] rfl rfl ?_ ?_ (by decide)
  · intro m hm
    have hm0 : m = 0 := by omega
    subst hm0
    exact ⟨[], rfl, rfl⟩
  · exact ⟨[{ slug := some "abc123", name := some "Automatic backup", size := some 1024 }],
      rfl, by decide⟩

/-- **C8.** The reload step: the service list is fixed and ordered with
exactly the 8 operations; every service is called exactly once regardless of
the other outcomes (the event trace equals the full ordered list for every
call oracle); the step succeeds iff its error list is empty; and every
non-dry-run run that completes promotion records the reload step and calls
all 8 services — with no hypothesis on the remote check's outcome, so an
invalid verify does not prevent the reload. -/
theorem c8_reload_continue_all :
    reload_services =
      [("homeassistant", "reload_core_config"), ("automation", "reload"),
       ("script", "reload"), ("scene", "reload"), ("input_boolean", "reload"),
       ("input_number", "reload"), ("input_select", "reload"),
       ("input_text", "reload")] ∧
    (∀ call, (reload_home_assistant call).2 =
      reload_services.map (fun p => Event.reloadCall p.1 p.2)) ∧
    (∀ call, (reload_home_assistant call).1.reloaded.length +
      (reload_home_assistant call).1.errors.length = 8) ∧
    (∀ call, (reload_home_assistant call).1.success = true ↔
      (reload_home_assistant call).1.errors = []) ∧
    (∀ env : Env,
      env.pathExists = true →
      (validate_local_config env.parse env.tree).1 = true →
      (rsync_to_staging env.stagingProc).success = true →
      env.dry_run = false →
      (env.no_backup = true ∨ ∃ b, (wait_for_backup env.listBackups
        env.createPrimary env.createLegacy 300).1 = .ok b ∧ b.success = true) →
      (deploy_staging_to_production (env.deployProc false) false).success = true →
      (main env).report.reload = some (reload_home_assistant env.reloadCall).1 ∧
      ∀ p ∈ reload_services, Event.reloadCall p.1 p.2 ∈ (main env).events) := by
  refine ⟨rfl, ?_, ?_, ?_, ?_⟩
  · intro call
    simpa [reload_home_assistant] using
      reload_go_events call reload_services [] [] []
  · intro call
    simpa [reload_home_assistant] using
      reload_go_count call reload_services [] [] []
  · exact fun call => reload_success_iff call
  · intro env hpath hval hstg hdry hbk hd
    obtain ⟨r, evs, hm, -⟩ := main_reaches_tail env hpath hval hstg hdry hbk
    obtain ⟨hchk, hrl, hev⟩ := pipeline_tail_after_deploy env r evs hd
    rw [hm]
    refine ⟨hrl, ?_⟩
    intro p hp
    have hmem : Event.reloadCall p.1 p.2 ∈ (reload_home_assistant env.reloadCall).2 := by
      have he := reload_go_events env.reloadCall reload_services [] [] []
      simp only [reload_home_assistant]
      rw [he]
      simp only [List.nil_append, List.mem_map]
      exact ⟨p, hp, rfl⟩
    rw [hev]
    simp [List.mem_append, hmem]

/-- Witness for C8 at a concrete run whose remote check is invalid and whose
`automation.reload` call fails: the reload step is still recorded and the
failing service was still called. -/
theorem c8_reload_continue_all_witness :
    (main envInvalidCheck).report.reload =
      some (reload_home_assistant envInvalidCheck.reloadCall).1 ∧
    Event.reloadCall "automation" "reload" ∈ (main envInvalidCheck).events ∧
    checkInvalid (run_ha_core_check envInvalidCheck.jsonLoads envInvalidCheck.checkProc)
      = true := by
  have h := c8_reload_continue_all.2.2.2.2 envInvalidCheck rfl (by decide) (by decide)
    rfl (Or.inl rfl) (by decide)
  exact ⟨h.1, h.2 ("automation", "reload") (by decide), by decide⟩

/-- **C9.** `run_ha_core_check` classifies every outcome into exactly one of
valid (`success` without `skipped`), invalid (`¬success` without `skipped`,
which by the first conjunct never coincides with a skip) or unsupported
(`skipped`): an authorization-failure substring in stdout or stderr gives
unsupported before anything else; a JSON-object stdout is valid iff its
`result` field is `ok` and otherwise invalid carrying the reported `message`;
an unparseable stdout with exit code 0 is valid with the raw output attached;
an unparseable stdout with nonzero exit, a decoded non-object, and a transport
exception are all unsupported. -/
theorem c9_remote_check_classification (jsonLoads : String → JsonParse)
    (proc : ProcOutcome) :
    ((run_ha_core_check jsonLoads proc).skipped = true →
      (run_ha_core_check jsonLoads proc).success = true) ∧
    (∀ m, proc = .exn m →
      run_ha_core_check jsonLoads proc =
        { success := true, skipped := true,
          note := some ("ha core check unavailable: " ++ m) }) ∧
    (∀ rc out err, proc = .ran rc out err →
      (strContains (strLower err) "unauthorized" ||
        strContains (strLower out) "unauthorized") = true →
      run_ha_core_check jsonLoads proc =
        { success := true, skipped := true,
          note := some "ha core check not available via SSH (auth required)" }) ∧
    (∀ rc out err fields, proc = .ran rc out err →
      (strContains (strLower err) "unauthorized" ||
        strContains (strLower out) "unauthorized") = false →
      jsonLoads out = .obj fields →
      (run_ha_core_check jsonLoads proc).skipped = false ∧
      ((run_ha_core_check jsonLoads proc).success = true ↔
        fields.lookup "result" = some "ok") ∧
      (run_ha_core_check jsonLoads proc).output = some (.json fields) ∧
      (¬fields.lookup "result" = some "ok" →
        (run_ha_core_check jsonLoads proc).error = fields.lookup "message")) ∧
    (∀ rc out err, proc = .ran rc out err →
      (strContains (strLower err) "unauthorized" ||
        strContains (strLower out) "unauthorized") = false →
      jsonLoads out = .fail → rc = 0 →
      run_ha_core_check jsonLoads proc =
        { success := true, output := some (.raw out) }) ∧
    (∀ rc out err, proc = .ran rc out err →
      (strContains (strLower err) "unauthorized" ||
        strContains (strLower out) "unauthorized") = false →
      jsonLoads out = .fail → ¬rc = 0 →
      run_ha_core_check jsonLoads proc =
        { success := true, skipped := true,
          note := some "Could not parse ha core check output" }) ∧
    (∀ rc out err m, proc = .ran rc out err →
      (strContains (strLower err) "unauthorized" ||
        strContains (strLower out) "unauthorized") = false →
      jsonLoads out = .nonObj m →
      run_ha_core_check jsonLoads proc =
        { success := true, skipped := true,
          note := some ("ha core check unavailable: " ++ m) }) := by
  refine ⟨?_, ?_, ?_, ?_, ?_, ?_, ?_⟩
  · intro hskip
    have h := check_success_eq_not_invalid jsonLoads proc
    rw [checkInvalid, hskip] at h
    simpa using h
  · intro m hp
    subst hp
    rfl
  · intro rc out err hp hauth
    subst hp
    simp only [run_ha_core_check]
    rw [if_pos hauth]
  · intro rc out err fields hp hauth hj
    subst hp
    simp only [run_ha_core_check]
    rw [if_neg (by simp [hauth])]
    simp only [hj]
    refine ⟨by trivial, ?_, by trivial, ?_⟩
    · simp [beq_iff_eq]
    · intro hne
      have hb : (fields.lookup "result" == some "ok") = false := by
        simp [beq_iff_eq, hne]
      simp [hb]
  · intro rc out err hp hauth hj hrc
    subst hp
    simp only [run_ha_core_check]
    rw [if_neg (by simp [hauth])]
    simp only [hj]
    rw [if_pos (by simp [hrc])]
  · intro rc out err hp hauth hj hrc
    subst hp
    simp only [run_ha_core_check]
    rw [if_neg (by simp [hauth])]
    simp only [hj]
    rw [if_neg (by simp [hrc])]
  · intro rc out err m hp hauth hj
    subst hp
    simp only [run_ha_core_check]
    rw [if_neg (by simp [hauth])]
    simp only [hj]

/-- Witness for C9 at a concrete authorization-failure output: classified as
unsupported (skipped), not invalid. -/
theorem c9_remote_check_classification_witness :
    run_ha_core_check (fun _ => JsonParse.fail) (.ran 1 "" "ERROR: Unauthorized") =
      { success := true, skipped := true,
        note := some "ha core check not available via SSH (auth required)" } :=
  (c9_remote_check_classification (fun _ => JsonParse.fail)
    (.ran 1 "" "ERROR: Unauthorized")).2.2.1 1 "" "ERROR: Unauthorized" rfl (by decide)

end DeployConfig
